import Mathlib

/-!
Verification of the resilience layer of asuraclient-fca-unofficial:
the bounded TTL cache (module cache, class Cache) and the centralized
error handling (modules errors and errorHandler).

The JavaScript source is embedded shallowly:
* a JS Map is an ordered association list (insertion order preserved;
  re-setting an existing key keeps its original position, as JS Maps do);
* Date.now() instants and TTL durations are integers (milliseconds);
* JS truthiness is modelled explicitly where the source relies on it
  (options.maxSize || 1000, ttl || this.defaultTTL, error.code || ...).
-/

namespace Asura

/-- Ordered map with string keys, modelling a JavaScript Map: an
association list in insertion order with pairwise distinct keys as
maintained by omSet. -/
def OMap (α : Type) : Type := List (String × α)

namespace OMap

/-- Value for a key: the first binding, like Map.prototype.get. -/
def omGet {α : Type} : OMap α → String → Option α
  | [], _ => none
  | (k', v) :: t, k => if k' = k then some v else omGet t k

/-- Map.prototype.set: update an existing key in place (position kept),
otherwise append the new binding at the end. -/
def omSet {α : Type} : OMap α → String → α → OMap α
  | [], k, v => [(k, v)]
  | (k', v') :: t, k, v =>
      if k' = k then (k, v) :: t else (k', v') :: omSet t k v

/-- Map.prototype.delete: remove the binding for the key. -/
def omDelete {α : Type} (m : OMap α) (k : String) : OMap α :=
  m.filter (fun p => p.1 ≠ k)

/-- Map.prototype.has. -/
def omHas {α : Type} (m : OMap α) (k : String) : Bool :=
  (omGet m k).isSome

/-- Map.prototype.size. -/
def omSize {α : Type} (m : OMap α) : Nat := m.length

/-- First key in insertion order: map.keys().next().value, which is
undefined (none) on an empty map. -/
def omFirstKey {α : Type} (m : OMap α) : Option String :=
  m.head?.map Prod.fst

/-- Keys in insertion order. -/
def omKeys {α : Type} (m : OMap α) : List String :=
  m.map Prod.fst

end OMap

open OMap

/-- JavaScript or-default on an optional number: o || d, where 0 and a
missing argument are falsy and fall back to the default. -/
def jsOrNum (o : Option Int) (d : Int) : Int :=
  match o with
  | some v => if v = 0 then d else v
  | none => d

/-- Cache class state from module cache: maxSize and defaultTTL plus the
two JavaScript Maps this.cache (key to value) and this.timestamps (key
to expiry instant). -/
structure Cache (α : Type) where
  maxSize : Int
  defaultTTL : Int
  cache : OMap α
  timestamps : OMap Int

namespace Cache

/-- Cache constructor: this.maxSize = options.maxSize || 1000 and
this.defaultTTL = options.defaultTTL || 300000, with empty maps. -/
def mkCache (α : Type) (maxSize? defaultTTL? : Option Int) : Cache α :=
  { maxSize := jsOrNum maxSize? 1000
    defaultTTL := jsOrNum defaultTTL? 300000
    cache := []
    timestamps := [] }

/-- Cache.prototype.delete: remove the key from both maps. -/
def deleteOp {α : Type} (s : Cache α) (k : String) : Cache α :=
  { s with cache := omDelete s.cache k, timestamps := omDelete s.timestamps k }

/-- Eviction prelude of Cache.prototype.set: when
this.cache.size >= this.maxSize, delete the first key of this.cache (a
no-op when the map is empty, since the first key is then undefined). -/
def evictIfFull {α : Type} (s : Cache α) : Cache α :=
  if (omSize s.cache : Int) ≥ s.maxSize then
    match omFirstKey s.cache with
    | some fk => deleteOp s fk
    | none => s
  else s

/-- Cache.prototype.set at instant now: run the eviction prelude, then
set the value and the expiry now + (ttl || this.defaultTTL) in the two
maps. -/
def set {α : Type} (s : Cache α) (k : String) (v : α) (ttl : Option Int)
    (now : Int) : Cache α :=
  let s1 := evictIfFull s
  { s1 with
      cache := omSet s1.cache k v
      timestamps := omSet s1.timestamps k (now + jsOrNum ttl s.defaultTTL) }

/-- Cache.prototype.get at instant now: undefined when the key is absent;
when the stored timestamp is truthy and now > timestamp, delete the key
from both maps and return undefined; otherwise return the entry. The
result pairs the returned value with the possibly updated state. -/
def get {α : Type} (s : Cache α) (k : String) (now : Int) :
    Option α × Cache α :=
  if ¬ omHas s.cache k then (none, s)
  else
    let entry := omGet s.cache k
    let timestamp := omGet s.timestamps k
    match timestamp with
    | some t => if t ≠ 0 ∧ now > t then (none, deleteOp s k) else (entry, s)
    | none => (entry, s)

/-- Cache.prototype.has: presence in this.cache only. -/
def hasOp {α : Type} (s : Cache α) (k : String) : Bool :=
  omHas s.cache k

/-- Cache.prototype.clear. -/
def clearOp {α : Type} (s : Cache α) : Cache α :=
  { s with cache := [], timestamps := [] }

/-- Cache.prototype.size. -/
def sizeOp {α : Type} (s : Cache α) : Nat :=
  omSize s.cache

/-- Snapshot returned by Cache.prototype.stats. -/
structure Stats where
  size : Nat
  maxSize : Int
  defaultTTL : Int
deriving DecidableEq

/-- Cache.prototype.stats. -/
def statsOp {α : Type} (s : Cache α) : Stats :=
  { size := omSize s.cache, maxSize := s.maxSize, defaultTTL := s.defaultTTL }

/-- State after a program-order sequence of set calls, each op giving
key, value, optional ttl and call instant. -/
def applySets {α : Type} (s : Cache α)
    (ops : List (String × α × Option Int × Int)) : Cache α :=
  ops.foldl (fun acc op => set acc op.1 op.2.1 op.2.2.1 op.2.2.2) s

end Cache

/-- Error kinds of module errors: one constructor per FCAError subclass. -/
inductive FCAKind where
  | authentication
  | network
  | validation
  | configuration
  | security
  | database
deriving DecidableEq

/-- Code set by each FCAError subclass constructor. -/
def kindCode : FCAKind → String
  | .authentication => "AUTH_ERROR"
  | .network => "NETWORK_ERROR"
  | .validation => "VALIDATION_ERROR"
  | .configuration => "CONFIG_ERROR"
  | .security => "SECURITY_ERROR"
  | .database => "DATABASE_ERROR"

mutual
/-- JavaScript value as used by the error layer and by parameter
validation: primitives, plain objects, and error objects. -/
inductive DVal where
  | undef
  | null
  | bool (b : Bool)
  | num (n : Int)
  | str (s : String)
  | obj (fields : DFields)
  | err (e : JSErr)

/-- Fields of a plain JavaScript object, in literal order. -/
inductive DFields where
  | nil
  | cons (key : String) (v : DVal) (rest : DFields)

/-- An error value: either an instance of an FCAError subclass, carrying
kind, message, details and the construction timestamp, or a plain Error
with a message and an optional code property. -/
inductive JSErr where
  | fca (kind : FCAKind) (message : String) (details : DVal) (timestamp : Int)
  | plain (message : String) (code : Option String)
end

namespace DVal

/-- JavaScript truthiness test, negated: undefined, null, false, 0 and
the empty string are falsy. -/
def falsy : DVal → Bool
  | .undef => true
  | .null => true
  | .bool b => !b
  | .num n => n == 0
  | .str s => s == ""
  | .obj _ => false
  | .err _ => false

/-- Result of the JavaScript typeof operator (typeof null is "object"). -/
def typeofStr : DVal → String
  | .undef => "undefined"
  | .null => "object"
  | .bool _ => "boolean"
  | .num _ => "number"
  | .str _ => "string"
  | .obj _ => "object"
  | .err _ => "object"

/-- Property lookup on a plain object; undefined on any other value. -/
def getProp : DVal → String → DVal
  | .obj fields, k => go fields k
  | _, _ => .undef
where
  go : DFields → String → DVal
    | .nil, _ => .undef
    | .cons key v rest, k => if key = k then v else go rest k

/-- Test for the absent values of validateRequiredParams:
params[param] === undefined || params[param] === null. -/
def isMissingVal : DVal → Bool
  | .undef => true
  | .null => true
  | _ => false

end DVal

/-- Whether the error is an instance of FCAError. -/
def isFCAErr : JSErr → Bool
  | .fca .. => true
  | .plain .. => false

/-- ErrorHandler.getSafeErrorMessage from module errors: a fixed generic
sentence for SecurityError instances, the original message for every
other FCAError, and a fixed fallback for unrecognized errors. -/
def getSafeErrorMessage : JSErr → String
  | .fca kind message _ _ =>
      if kind = .security then
        "A security error occurred. Please check your credentials and try again."
      else message
  | .plain _ _ => "An unexpected error occurred. Please try again later."

open OMap

/-- ERROR_CODES table of module errorHandler, in source order. -/
def ERROR_CODES : OMap String :=
  [("AUTH_LOGIN_FAILED", "ERR_AUTH_01"),
   ("AUTH_CHECKPOINT", "ERR_AUTH_02"),
   ("AUTH_2FA_REQUIRED", "ERR_AUTH_03"),
   ("AUTH_SESSION_EXPIRED", "ERR_AUTH_04"),
   ("AUTH_CREDENTIALS_INVALID", "ERR_AUTH_05"),
   ("NETWORK_TIMEOUT", "ERR_NETWORK_01"),
   ("NETWORK_CONNECTION_FAILED", "ERR_NETWORK_02"),
   ("NETWORK_REQUEST_FAILED", "ERR_NETWORK_03"),
   ("NETWORK_PARSE_FAILED", "ERR_NETWORK_04"),
   ("NETWORK_RATE_LIMITED", "ERR_NETWORK_05"),
   ("VALIDATION_MISSING_PARAM", "ERR_VALIDATION_01"),
   ("VALIDATION_INVALID_FORMAT", "ERR_VALIDATION_02"),
   ("VALIDATION_OUT_OF_RANGE", "ERR_VALIDATION_03"),
   ("CONFIG_MISSING", "ERR_CONFIG_01"),
   ("CONFIG_INVALID", "ERR_CONFIG_02"),
   ("CONFIG_FILE_NOT_FOUND", "ERR_CONFIG_03"),
   ("SECURITY_ENCRYPTION_FAILED", "ERR_SECURITY_01"),
   ("SECURITY_DECRYPTION_FAILED", "ERR_SECURITY_02"),
   ("SECURITY_VALIDATION_FAILED", "ERR_SECURITY_03"),
   ("SECURITY_PERMISSION_DENIED", "ERR_SECURITY_04"),
   ("DATABASE_CONNECTION_FAILED", "ERR_DATABASE_01"),
   ("DATABASE_QUERY_FAILED", "ERR_DATABASE_02"),
   ("DATABASE_RECORD_NOT_FOUND", "ERR_DATABASE_03"),
   ("UNKNOWN_ERROR", "ERR_GENERAL_01"),
   ("NOT_IMPLEMENTED", "ERR_GENERAL_02"),
   ("OPERATION_CANCELLED", "ERR_GENERAL_03")]

/-- Function getErrorCode: ERROR_CODES[errorType] || ERROR_CODES.UNKNOWN_ERROR.
Every value in the table is a nonempty (truthy) string, so the JS
or-fallback is exactly a defaulted lookup; ERROR_CODES.UNKNOWN_ERROR is
the string ERR_GENERAL_01. -/
def getErrorCode (errorType : String) : String :=
  (omGet ERROR_CODES errorType).getD "ERR_GENERAL_01"

/-- Record returned by createErrorResponse. -/
structure ErrorResponse where
  error : Bool
  message : String
  code : String
  errorCode : String
  details : DVal
  timestamp : Int

/-- Function createErrorResponse; now is the report instant used by the
generic branch (new Date().toISOString()). The FCAError branch uses the
error's own construction timestamp. -/
def createErrorResponse (e : JSErr) (now : Int) : ErrorResponse :=
  match e with
  | .fca kind message details timestamp =>
      { error := true
        message := message
        code := kindCode kind
        errorCode := getErrorCode (kindCode kind)
        details := details
        timestamp := timestamp }
  | .plain message _ =>
      { error := true
        message := if message = "" then "An unknown error occurred" else message
        code := "UNKNOWN_ERROR"
        errorCode := getErrorCode "UNKNOWN_ERROR"
        details := .obj .nil
        timestamp := now }

/-- ValidationError constructor with default details {}: code
VALIDATION_ERROR, timestamp taken at construction. -/
def mkValidationError (message : String) (now : Int) : JSErr :=
  .fca .validation message (.obj .nil) now

/-- Loop body of validateRequiredParams: walk the required names in
order and throw on the first one whose property in params is undefined
or null. -/
def checkRequired (params : DVal) (now : Int) :
    List String → Except JSErr Unit
  | [] => .ok ()
  | p :: rest =>
      if (params.getProp p).isMissingVal then
        .error (mkValidationError ("Required parameter '" ++ p ++ "' is missing") now)
      else checkRequired params now rest

/-- Function validateRequiredParams: reject a falsy or non-object params
value, then fail on the first required name whose property is undefined
or null, else return unit. The result is the thrown error or unit. -/
def validateRequiredParams (params : DVal) (required : List String)
    (now : Int) : Except JSErr Unit :=
  if params.falsy || params.typeofStr ≠ "object" then
    .error (mkValidationError "Parameters must be an object" now)
  else checkRequired params now required

/-- One entry of the RETRY_CONFIG table. -/
structure RetryPolicy where
  maxRetries : Int
  delay : Int
deriving DecidableEq

/-- RETRY_CONFIG of module errorHandler, keyed by the catalog codes of
NETWORK_TIMEOUT, NETWORK_CONNECTION_FAILED and AUTH_SESSION_EXPIRED. -/
def RETRY_CONFIG : OMap RetryPolicy :=
  [("ERR_NETWORK_01", { maxRetries := 3, delay := 1000 }),
   ("ERR_NETWORK_02", { maxRetries := 3, delay := 2000 }),
   ("ERR_AUTH_04", { maxRetries := 1, delay := 0 })]

/-- Function shouldRetry: RETRY_CONFIG[errorCode] && maxRetries > 0. -/
def shouldRetry (errorCode : String) (maxRetries : Int) : Bool :=
  (omGet RETRY_CONFIG errorCode).isSome && maxRetries > 0

/-- Function getRetryCount: retryCounts.get(errorCode) || 0. -/
def getRetryCount (st : OMap Int) (errorCode : String) : Int :=
  (omGet st errorCode).getD 0

/-- Function incrementRetryCount. -/
def incrementRetryCount (st : OMap Int) (errorCode : String) : OMap Int :=
  omSet st errorCode (getRetryCount st errorCode + 1)

/-- Function resetRetryCount: retryCounts.delete(errorCode). -/
def resetRetryCount (st : OMap Int) (errorCode : String) : OMap Int :=
  omDelete st errorCode

/-- Options of handleApiError after merging with the defaults. -/
structure HandlerOpts where
  retry : Bool
  maxRetries : Int
  retryDelay : Int
  report : Bool
  logLevel : String

/-- Default options of handleApiError. -/
def defaultHandlerOpts : HandlerOpts :=
  { retry := false, maxRetries := 3, retryDelay := 1000
    report := true, logLevel := "error" }

/-- What handleApiError delivers to its caller: a retry signal through
the callback (callback(new Error: Retry attempt n)), a retry signal by
throwing a synthetic NetworkError, the error passed to the callback, or
a thrown error. -/
inductive Outcome where
  | retryCallback (signal : JSErr)
  | retryThrow (signal : JSErr)
  | callbackErr (e : JSErr)
  | thrown (e : JSErr)

/-- The errorCode read by handleApiError:
error.code || ERROR_CODES.UNKNOWN_ERROR. An FCAError's code is its kind
code (always a nonempty string); a plain error contributes its own code
property when truthy; the fallback ERROR_CODES.UNKNOWN_ERROR is the
string ERR_GENERAL_01. -/
def errCodeOf : JSErr → String
  | .fca kind _ _ _ => kindCode kind
  | .plain _ code =>
      match code with
      | some c => if c = "" then "ERR_GENERAL_01" else c
      | none => "ERR_GENERAL_01"

/-- Final surfacing branch of handleApiError (lines after the retry
block): with a callback, callback(error) receives the error as-is;
without one, an FCAError is rethrown unchanged and any other error is
wrapped as new NetworkError with details.originalError. -/
def surfaceError (st : OMap Int) (error : JSErr) (hasCallback : Bool)
    (now : Int) : OMap Int × Outcome :=
  if hasCallback then (st, .callbackErr error)
  else
    match error with
    | .fca .. => (st, .thrown error)
    | .plain .. =>
        (st, .thrown (.fca .network "An unexpected error occurred"
          (.obj (.cons "originalError" (.err error) .nil)) now))

/-- Function handleApiError as a pure transition on the retryCounts map,
at report instant now; hasCallback tells whether a callback argument was
supplied. Logging and reporting are fire-and-forget collaborators and do
not affect the state or the outcome. -/
def handleApiError (error : JSErr) (opts : HandlerOpts)
    (hasCallback : Bool) (st : OMap Int) (now : Int) : OMap Int × Outcome :=
  let errorCode := errCodeOf error
  if opts.retry && shouldRetry errorCode opts.maxRetries then
    let retryCount := getRetryCount st errorCode
    if retryCount < opts.maxRetries then
      let st' := incrementRetryCount st errorCode
      if hasCallback then
        (st', .retryCallback (.plain ("Retry attempt " ++ toString (retryCount + 1)) none))
      else
        (st', .retryThrow (.fca .network
          ("Operation failed, retry attempt " ++ toString (retryCount + 1))
          (.obj (.cons "originalError" (.err error)
            (.cons "retryAttempt" (.num (retryCount + 1)) .nil))) now))
    else
      surfaceError (resetRetryCount st errorCode) error hasCallback now
  else
    surfaceError st error hasCallback now


/-!
Lemma layer: facts about the ordered-map embedding and the Cache class
used by the claim theorems below.
-/

namespace OMap

theorem omGet_omSet_self {α : Type} (m : OMap α) (k : String) (v : α) :
    omGet (omSet m k v) k = some v := by
  induction m with
  | nil => simp [omSet, omGet]
  | cons p t ih =>
      by_cases h : p.1 = k
      · simp [omSet, omGet, h]
      · simp [omSet, omGet, h, ih]

theorem omHas_omSet_self {α : Type} (m : OMap α) (k : String) (v : α) :
    omHas (omSet m k v) k = true := by
  simp [omHas, omGet_omSet_self]

theorem omGet_omDelete_self {α : Type} (m : OMap α) (k : String) :
    omGet (omDelete m k) k = none := by
  induction m with
  | nil => simp [omDelete, omGet]
  | cons p t ih =>
      by_cases h : p.1 = k
      · simpa [omDelete, omGet, h] using ih
      · simpa [omDelete, omGet, h] using ih

theorem omHas_omDelete_self {α : Type} (m : OMap α) (k : String) :
    omHas (omDelete m k) k = false := by
  simp [omHas, omGet_omDelete_self]

theorem length_omSet_le {α : Type} (m : OMap α) (k : String) (v : α) :
    (omSet m k v).length ≤ m.length + 1 := by
  induction m with
  | nil => simp [omSet]
  | cons p t ih =>
      by_cases h : p.1 = k
      · simp [omSet, h]
      · simp only [omSet, h, if_false, List.length_cons]
        omega

theorem length_omSet_of_has {α : Type} (m : OMap α) (k : String) (v : α)
    (h : omHas m k = true) : (omSet m k v).length = m.length := by
  induction m with
  | nil => simp [omHas, omGet] at h
  | cons p t ih =>
      by_cases hk : p.1 = k
      · simp [omSet, hk]
      · have ht : omHas t k = true := by
          simpa [omHas, omGet, hk] using h
        simp [omSet, hk, ih ht]

theorem omKeys_omSet_of_has {α : Type} (m : OMap α) (k : String) (v : α)
    (h : omHas m k = true) : omKeys (omSet m k v) = omKeys m := by
  induction m with
  | nil => simp [omHas, omGet] at h
  | cons p t ih =>
      by_cases hk : p.1 = k
      · simp [omSet, hk, omKeys]
      · have ht : omHas t k = true := by
          simpa [omHas, omGet, hk] using h
        simp only [omSet, hk, if_false, omKeys, List.map_cons]
        simpa [omKeys] using ih ht

theorem omKeys_omSet_of_not_has {α : Type} (m : OMap α) (k : String) (v : α)
    (h : omHas m k = false) : omKeys (omSet m k v) = omKeys m ++ [k] := by
  induction m with
  | nil => simp [omSet, omKeys]
  | cons p t ih =>
      by_cases hk : p.1 = k
      · simp [omHas, omGet, hk] at h
      · have ht : omHas t k = false := by
          simpa [omHas, omGet, hk] using h
        simp only [omSet, hk, if_false, omKeys, List.map_cons]
        simpa [omKeys] using ih ht

theorem omDelete_of_not_mem {α : Type} (m : OMap α) (k : String)
    (h : k ∉ omKeys m) : omDelete m k = m := by
  induction m with
  | nil => rfl
  | cons q s ih =>
      simp only [omKeys, List.map_cons, List.mem_cons, not_or] at h
      obtain ⟨h1, h2⟩ := h
      have hqk : q.1 ≠ k := fun he => h1 he.symm
      simp only [omDelete, List.filter_cons]
      have hd : (decide (q.1 ≠ k)) = true := by simp [hqk]
      rw [hd]
      have := ih (by simpa [omKeys] using h2)
      simp only [omDelete] at this
      rw [this]
      simp

theorem omDelete_head {α : Type} (p : String × α) (t : OMap α)
    (hnd : p.1 ∉ omKeys t) :
    omDelete (p :: t) p.1 = t := by
  simp only [omDelete, List.filter_cons]
  have hp : (decide (p.1 ≠ p.1)) = false := by simp
  rw [hp]
  simpa [omDelete] using omDelete_of_not_mem t p.1 hnd

theorem length_omDelete_cons_head {α : Type} (p : String × α) (t : OMap α) :
    (omDelete (p :: t) p.1).length ≤ t.length := by
  simp only [omDelete, List.filter_cons]
  have hp : (decide (p.1 ≠ p.1)) = false := by simp
  rw [hp]
  simpa using List.length_filter_le _ t

theorem omHas_eq_false_iff {α : Type} (m : OMap α) (k : String) :
    omHas m k = false ↔ k ∉ omKeys m := by
  induction m with
  | nil => simp [omHas, omGet, omKeys]
  | cons p t ih =>
      by_cases h : p.1 = k
      · simp [omHas, omGet, omKeys, h]
      · have h1 : omHas (p :: t) k = omHas t k := by simp [omHas, omGet, h]
        rw [h1, ih]
        constructor
        · intro hk
          simp only [omKeys, List.map_cons, List.mem_cons, not_or]
          exact ⟨fun he => h he.symm, hk⟩
        · intro hk
          simp only [omKeys, List.map_cons, List.mem_cons, not_or] at hk
          exact hk.2

theorem length_omSet_of_not_has {α : Type} (m : OMap α) (k : String) (v : α)
    (h : omHas m k = false) : (omSet m k v).length = m.length + 1 := by
  have hk := omKeys_omSet_of_not_has m k v h
  have h1 : (omKeys (omSet m k v)).length = (omKeys m ++ [k]).length := by
    rw [hk]
  simpa [omKeys] using h1

theorem mem_omKeys_omSet {α : Type} (m : OMap α) (k : String) (v : α)
    (x : String) (hx : x ∈ omKeys (omSet m k v)) :
    x ∈ omKeys m ∨ x = k := by
  cases hh : omHas m k with
  | true =>
      rw [omKeys_omSet_of_has m k v hh] at hx
      exact Or.inl hx
  | false =>
      rw [omKeys_omSet_of_not_has m k v hh] at hx
      rcases List.mem_append.mp hx with h | h
      · exact Or.inl h
      · exact Or.inr (by simpa using h)

theorem nodup_omKeys_omSet {α : Type} (m : OMap α) (k : String) (v : α)
    (h : (omKeys m).Nodup) : (omKeys (omSet m k v)).Nodup := by
  cases hh : omHas m k with
  | true => rw [omKeys_omSet_of_has m k v hh]; exact h
  | false =>
      rw [omKeys_omSet_of_not_has m k v hh]
      have hk : k ∉ omKeys m := (omHas_eq_false_iff m k).mp hh
      simpa [List.nodup_append] using ⟨h, hk⟩

theorem omKeys_omDelete_sublist {α : Type} (m : OMap α) (k : String) :
    (omKeys (omDelete m k)).Sublist (omKeys m) :=
  (List.filter_sublist m).map Prod.fst

theorem nodup_omKeys_omDelete {α : Type} (m : OMap α) (k : String)
    (h : (omKeys m).Nodup) : (omKeys (omDelete m k)).Nodup :=
  h.sublist (omKeys_omDelete_sublist m k)

theorem mem_omKeys_omDelete {α : Type} (m : OMap α) (k : String)
    (x : String) (hx : x ∈ omKeys (omDelete m k)) : x ∈ omKeys m :=
  (omKeys_omDelete_sublist m k).subset hx

end OMap

namespace Cache

variable {α : Type}

theorem set_cache (s : Cache α) (k : String) (v : α) (ttl : Option Int)
    (now : Int) :
    (set s k v ttl now).cache = omSet (evictIfFull s).cache k v := rfl

theorem evictIfFull_maxSize (s : Cache α) :
    (evictIfFull s).maxSize = s.maxSize := by
  unfold evictIfFull
  split
  · split <;> rfl
  · rfl

theorem set_maxSize (s : Cache α) (k : String) (v : α) (ttl : Option Int)
    (now : Int) : (set s k v ttl now).maxSize = s.maxSize :=
  evictIfFull_maxSize s

theorem evictIfFull_of_lt (s : Cache α)
    (h : (omSize s.cache : Int) < s.maxSize) : evictIfFull s = s := by
  unfold evictIfFull
  rw [if_neg (not_le.mpr h)]

theorem evictIfFull_of_full (s : Cache α) (p : String × α) (t : OMap α)
    (hp : s.cache = p :: t) (hge : (omSize s.cache : Int) ≥ s.maxSize) :
    evictIfFull s = deleteOp s p.1 := by
  unfold evictIfFull
  rw [if_pos hge]
  have hfk : omFirstKey s.cache = some p.1 := by simp [omFirstKey, hp]
  rw [hfk]

theorem sizeOp_set_le (s : Cache α) (k : String) (v : α) (ttl : Option Int)
    (now : Int) (h1 : 1 ≤ s.maxSize) (hsz : (sizeOp s : Int) ≤ s.maxSize) :
    (sizeOp (set s k v ttl now) : Int) ≤ s.maxSize := by
  simp only [sizeOp, omSize] at hsz ⊢
  by_cases hge : (omSize s.cache : Int) ≥ s.maxSize
  · have hlen : (1 : Int) ≤ (s.cache.length : Int) :=
      le_trans h1 (by simpa [omSize] using hge)
    obtain ⟨p, t, hp⟩ : ∃ p t, s.cache = p :: t := by
      cases hc : s.cache with
      | nil => rw [hc] at hlen; norm_num at hlen
      | cons p t => exact ⟨p, t, rfl⟩
    have he : evictIfFull s = deleteOp s p.1 := evictIfFull_of_full s p t hp hge
    have hle1 : (omSet (omDelete s.cache p.1) k v).length
        ≤ (omDelete s.cache p.1).length + 1 := length_omSet_le _ k v
    have hle2 : (omDelete s.cache p.1).length ≤ t.length := by
      rw [hp]; exact length_omDelete_cons_head p t
    have hlen2 : s.cache.length = t.length + 1 := by rw [hp]; simp
    have hc : (set s k v ttl now).cache = omSet (omDelete s.cache p.1) k v := by
      rw [set_cache, he]; rfl
    rw [hc]
    omega
  · have he : evictIfFull s = s := evictIfFull_of_lt s (not_le.mp hge)
    have hlt : (s.cache.length : Int) < s.maxSize := by
      simpa [omSize] using not_le.mp hge
    have hle := length_omSet_le s.cache k v
    have hc : (set s k v ttl now).cache = omSet s.cache k v := by
      rw [set_cache, he]
    rw [hc]
    omega

theorem sizeOp_set_fresh (s : Cache α) (k : String) (v : α)
    (ttl : Option Int) (now : Int) (h1 : 1 ≤ s.maxSize)
    (hsz : (sizeOp s : Int) ≤ s.maxSize) (hfresh : omHas s.cache k = false)
    (hnod : (omKeys s.cache).Nodup) :
    (sizeOp (set s k v ttl now) : Int)
      = min ((sizeOp s : Int) + 1) s.maxSize := by
  simp only [sizeOp, omSize] at hsz ⊢
  by_cases hge : (omSize s.cache : Int) ≥ s.maxSize
  · have hlen : (1 : Int) ≤ (s.cache.length : Int) :=
      le_trans h1 (by simpa [omSize] using hge)
    obtain ⟨p, t, hp⟩ : ∃ p t, s.cache = p :: t := by
      cases hc : s.cache with
      | nil => rw [hc] at hlen; norm_num at hlen
      | cons p t => exact ⟨p, t, rfl⟩
    have hpt : p.1 ∉ omKeys t := by
      rw [hp] at hnod
      have hkc : omKeys (p :: t) = p.1 :: omKeys t := by simp [omKeys]
      rw [hkc] at hnod
      exact (List.nodup_cons.mp hnod).1
    have hdel : omDelete s.cache p.1 = t := by
      rw [hp]; exact omDelete_head p t hpt
    have hfresh_t : omHas t k = false := by
      rw [omHas_eq_false_iff] at hfresh ⊢
      intro hk
      exact hfresh (by rw [hp]; simp [omKeys]; exact Or.inr (by simpa [omKeys] using hk))
    have hlenset : (omSet t k v).length = t.length + 1 :=
      length_omSet_of_not_has t k v hfresh_t
    have he : evictIfFull s = deleteOp s p.1 := evictIfFull_of_full s p t hp hge
    have hc : (set s k v ttl now).cache = omSet t k v := by
      rw [set_cache, he]
      show omSet (omDelete s.cache p.1) k v = omSet t k v
      rw [hdel]
    have hlen2 : s.cache.length = t.length + 1 := by rw [hp]; simp
    have hge' : s.maxSize ≤ (s.cache.length : Int) := by simpa [omSize] using hge
    rw [hc]
    simp only [min_def]
    split_ifs <;> omega
  · have he : evictIfFull s = s := evictIfFull_of_lt s (not_le.mp hge)
    have hlt : (s.cache.length : Int) < s.maxSize := by
      simpa [omSize] using not_le.mp hge
    have hlenset : (omSet s.cache k v).length = s.cache.length + 1 :=
      length_omSet_of_not_has s.cache k v hfresh
    have hc : (set s k v ttl now).cache = omSet s.cache k v := by
      rw [set_cache, he]
    rw [hc]
    simp only [min_def]
    split_ifs <;> omega

theorem nodup_omKeys_evictIfFull (s : Cache α)
    (hnod : (omKeys s.cache).Nodup) :
    (omKeys (evictIfFull s).cache).Nodup := by
  unfold evictIfFull
  split
  · split
    · exact nodup_omKeys_omDelete _ _ hnod
    · exact hnod
  · exact hnod

theorem nodup_omKeys_set (s : Cache α) (k : String) (v : α)
    (ttl : Option Int) (now : Int) (hnod : (omKeys s.cache).Nodup) :
    (omKeys (set s k v ttl now).cache).Nodup := by
  rw [set_cache]
  exact nodup_omKeys_omSet _ k v (nodup_omKeys_evictIfFull s hnod)

theorem mem_omKeys_evictIfFull (s : Cache α) (x : String)
    (hx : x ∈ omKeys (evictIfFull s).cache) : x ∈ omKeys s.cache := by
  revert hx
  unfold evictIfFull
  split
  · split
    · exact fun hx => mem_omKeys_omDelete _ _ x hx
    · exact fun hx => hx
  · exact fun hx => hx

theorem mem_omKeys_set (s : Cache α) (k : String) (v : α)
    (ttl : Option Int) (now : Int) (x : String)
    (hx : x ∈ omKeys (set s k v ttl now).cache) :
    x ∈ omKeys s.cache ∨ x = k := by
  rw [set_cache] at hx
  rcases mem_omKeys_omSet _ k v x hx with h | h
  · exact Or.inl (mem_omKeys_evictIfFull s x h)
  · exact Or.inr h

theorem sizeOp_applySets_le :
    ∀ (ops : List (String × α × Option Int × Int)) (s : Cache α),
      1 ≤ s.maxSize → (sizeOp s : Int) ≤ s.maxSize →
      (sizeOp (applySets s ops) : Int) ≤ s.maxSize := by
  intro ops
  induction ops with
  | nil => intro s _ h2; simpa [applySets] using h2
  | cons op rest ih =>
      intro s h1 h2
      have hstep := sizeOp_set_le s op.1 op.2.1 op.2.2.1 op.2.2.2 h1 h2
      have hmax := set_maxSize s op.1 op.2.1 op.2.2.1 op.2.2.2
      have hrec := ih (set s op.1 op.2.1 op.2.2.1 op.2.2.2)
        (by rw [hmax]; exact h1) (by rw [hmax]; exact hstep)
      rw [hmax] at hrec
      simpa [applySets, List.foldl_cons] using hrec

theorem sizeOp_applySets_min :
    ∀ (ops : List (String × α × Option Int × Int)) (s : Cache α),
      1 ≤ s.maxSize → (sizeOp s : Int) ≤ s.maxSize →
      (omKeys s.cache).Nodup →
      (∀ op ∈ ops, omHas s.cache op.1 = false) →
      (ops.map (fun op => op.1)).Nodup →
      (sizeOp (applySets s ops) : Int)
        = min ((sizeOp s : Int) + ops.length) s.maxSize := by
  intro ops
  induction ops with
  | nil =>
      intro s _ hsz _ _ _
      simp only [applySets, List.foldl_nil, List.length_nil, Nat.cast_zero,
        add_zero]
      exact (min_eq_left hsz).symm
  | cons op rest ih =>
      intro s h1 hsz hnod hfresh hdist
      set s' := set s op.1 op.2.1 op.2.2.1 op.2.2.2 with hs'
      have hmax : s'.maxSize = s.maxSize := set_maxSize s _ _ _ _
      have hszstep : (sizeOp s' : Int) = min ((sizeOp s : Int) + 1) s.maxSize :=
        sizeOp_set_fresh s _ _ _ _ h1 hsz (hfresh op (by simp)) hnod
      have hszle : (sizeOp s' : Int) ≤ s.maxSize := by
        rw [hszstep]; exact min_le_right _ _
      have hnod' : (omKeys s'.cache).Nodup := nodup_omKeys_set s _ _ _ _ hnod
      have hdm : (op.1 :: rest.map (fun o => o.1)).Nodup := by
        simp only [List.map_cons] at hdist
        exact hdist
      have hdt := List.nodup_cons.mp hdm
      have hfresh' : ∀ o ∈ rest, omHas s'.cache o.1 = false := by
        intro o ho
        rw [omHas_eq_false_iff]
        intro hx
        rcases mem_omKeys_set s _ _ _ _ o.1 hx with h | h
        · exact absurd h ((omHas_eq_false_iff _ _).mp (hfresh o (by simp [ho])))
        · exact hdt.1 (h ▸ List.mem_map_of_mem (fun x => x.1) ho)
      have hrec := ih s' (by rw [hmax]; exact h1) (by rw [hmax]; exact hszle)
        hnod' hfresh' hdt.2
      rw [hmax] at hrec
      have hfold : applySets s (op :: rest) = applySets s' rest := by
        simp [applySets, List.foldl_cons, hs']
      rw [hfold, hrec, hszstep]
      have hlen : ((op :: rest).length : Int) = (rest.length : Int) + 1 := by
        simp
      rw [hlen]
      simp only [min_def]
      split_ifs <;> omega

theorem get_after_set (s : Cache α) (k : String) (v : α) (ttl : Option Int)
    (now read : Int) :
    ((get (set s k v ttl now) k read).1 =
      (if (now + jsOrNum ttl s.defaultTTL) ≠ 0
          ∧ read > (now + jsOrNum ttl s.defaultTTL)
       then none else some v))
    ∧ ((get (set s k v ttl now) k read).2 =
      (if (now + jsOrNum ttl s.defaultTTL) ≠ 0
          ∧ read > (now + jsOrNum ttl s.defaultTTL)
       then deleteOp (set s k v ttl now) k else set s k v ttl now)) := by
  have hhas : omHas (set s k v ttl now).cache k = true := by
    rw [set_cache]; exact omHas_omSet_self _ k v
  have hcv : omGet (set s k v ttl now).cache k = some v := by
    rw [set_cache]; exact omGet_omSet_self _ k v
  have hts : omGet (set s k v ttl now).timestamps k
      = some (now + jsOrNum ttl s.defaultTTL) := by
    show omGet (omSet (evictIfFull s).timestamps k
      (now + jsOrNum ttl s.defaultTTL)) k = _
    exact omGet_omSet_self _ _ _
  constructor
  · unfold get
    rw [if_neg (by simp [hhas])]
    simp only [hts, hcv]
    by_cases hc : (now + jsOrNum ttl s.defaultTTL) ≠ 0
        ∧ read > (now + jsOrNum ttl s.defaultTTL)
    · rw [if_pos hc, if_pos hc]
    · rw [if_neg hc, if_neg hc]
  · unfold get
    rw [if_neg (by simp [hhas])]
    simp only [hts, hcv]
    by_cases hc : (now + jsOrNum ttl s.defaultTTL) ≠ 0
        ∧ read > (now + jsOrNum ttl s.defaultTTL)
    · rw [if_pos hc, if_pos hc]
    · rw [if_neg hc, if_neg hc]

end Cache


/-!
Claim theorems.
-/

/-- C1: over any sequence of set calls on a cache with capacity at least
one, the entry count never exceeds the capacity; when an insertion of a
fresh key happens at full capacity the evicted entry is exactly the
oldest-inserted one (the head of the insertion-ordered key list), the
remaining keys surviving in order with the new key appended; and a
sequence of set calls with pairwise distinct keys whose length reaches
the capacity leaves size() equal to the capacity. -/
theorem cache_capacity_fifo_eviction :
    (∀ (s : Cache Nat) (ops : List (String × Nat × Option Int × Int)),
        1 ≤ s.maxSize → (Cache.sizeOp s : Int) ≤ s.maxSize →
        (Cache.sizeOp (Cache.applySets s ops) : Int) ≤ s.maxSize)
    ∧
    (∀ (s : Cache Nat) (k : String) (v : Nat) (ttl : Option Int) (now : Int),
        (Cache.sizeOp s : Int) = s.maxSize → 1 ≤ s.maxSize →
        omHas s.cache k = false → (omKeys s.cache).Nodup →
        omKeys (Cache.set s k v ttl now).cache
          = (omKeys s.cache).tail ++ [k])
    ∧
    (∀ (c : Int) (ops : List (String × Nat × Option Int × Int)),
        1 ≤ c → (ops.map (fun op => op.1)).Nodup →
        c ≤ (ops.length : Int) →
        (Cache.sizeOp (Cache.applySets (Cache.mkCache Nat (some c) none) ops)
          : Int) = c) := by
  refine ⟨?_, ?_, ?_⟩
  · intro s ops h1 h2
    exact Cache.sizeOp_applySets_le ops s h1 h2
  · intro s k v ttl now hsz h1 hfresh hnod
    have hge : (omSize s.cache : Int) ≥ s.maxSize := by
      simp only [Cache.sizeOp] at hsz
      exact hsz.ge
    have hlen : (1 : Int) ≤ (s.cache.length : Int) := by
      simp only [Cache.sizeOp, omSize] at hsz
      omega
    obtain ⟨p, t, hp⟩ : ∃ p t, s.cache = p :: t := by
      cases hc : s.cache with
      | nil => rw [hc] at hlen; norm_num at hlen
      | cons p t => exact ⟨p, t, rfl⟩
    have hpt : p.1 ∉ omKeys t := by
      rw [hp] at hnod
      have hkc : omKeys (p :: t) = p.1 :: omKeys t := by simp [omKeys]
      rw [hkc] at hnod
      exact (List.nodup_cons.mp hnod).1
    have hfresh_t : omHas t k = false := by
      rw [omHas_eq_false_iff] at hfresh ⊢
      intro hk
      exact hfresh (by rw [hp]; exact List.mem_cons_of_mem _ (by simpa [omKeys] using hk))
    have he := Cache.evictIfFull_of_full s p t hp hge
    rw [Cache.set_cache, he]
    have hdc : (Cache.deleteOp s p.1).cache = omDelete s.cache p.1 := rfl
    rw [hdc, hp, omDelete_head p t hpt,
      omKeys_omSet_of_not_has t k v hfresh_t]
    simp [omKeys]
  · intro c ops h1 hdist hclen
    have hmax : (Cache.mkCache Nat (some c) none).maxSize = c := by
      have hc0 : c ≠ 0 := by omega
      simp [Cache.mkCache, jsOrNum, hc0]
    have hsz0 : (Cache.sizeOp (Cache.mkCache Nat (some c) none) : Int) = 0 := by
      simp [Cache.mkCache, Cache.sizeOp, omSize]
    have hnod0 : (omKeys (Cache.mkCache Nat (some c) none).cache).Nodup := by
      simp [Cache.mkCache, omKeys]
    have hfresh0 : ∀ op ∈ ops,
        omHas (Cache.mkCache Nat (some c) none).cache op.1 = false := by
      intro op _
      rfl
    have hmin := Cache.sizeOp_applySets_min ops (Cache.mkCache Nat (some c) none)
      (by rw [hmax]; exact h1) (by rw [hsz0, hmax]; omega) hnod0 hfresh0 hdist
    rw [hmax, hsz0] at hmin
    rw [hmin]
    have : (0 : Int) + (ops.length : Int) = (ops.length : Int) := by omega
    rw [this]
    exact min_eq_right hclen

/-- Witness for C1: the three parts applied to a capacity-2 cache and
the distinct-key sequence a, b, c. -/
theorem cache_capacity_fifo_eviction_witness :
    ((Cache.sizeOp (Cache.applySets (Cache.mkCache Nat (some 2) none)
        [("a", 1, none, 0), ("b", 2, none, 0), ("c", 3, none, 0)]) : Int)
      ≤ (Cache.mkCache Nat (some 2) none).maxSize)
    ∧ (omKeys (Cache.set (Cache.set (Cache.set (Cache.mkCache Nat (some 2) none)
        "a" 1 none 0) "b" 2 none 0) "c" 3 none 0).cache
      = (omKeys (Cache.set (Cache.set (Cache.mkCache Nat (some 2) none)
        "a" 1 none 0) "b" 2 none 0).cache).tail ++ ["c"])
    ∧ ((Cache.sizeOp (Cache.applySets (Cache.mkCache Nat (some 2) none)
        [("a", 1, none, 0), ("b", 2, none, 0), ("c", 3, none, 0)]) : Int)
      = 2) :=
  ⟨cache_capacity_fifo_eviction.1 (Cache.mkCache Nat (some 2) none)
      [("a", 1, none, 0), ("b", 2, none, 0), ("c", 3, none, 0)]
      (by decide) (by decide),
   cache_capacity_fifo_eviction.2.1
      (Cache.set (Cache.set (Cache.mkCache Nat (some 2) none)
        "a" 1 none 0) "b" 2 none 0) "c" 3 none 0
      (by decide) (by decide) (by decide) (by decide),
   cache_capacity_fifo_eviction.2.2 2
      [("a", 1, none, 0), ("b", 2, none, 0), ("c", 3, none, 0)]
      (by decide) (by decide) (by decide)⟩

/-- C5 counterexample: in a capacity-3 cache, after set a, set b,
overwrite a, set c the insertion order is still a, b, c (the JS Map kept
the overwritten key a at its original position), and the next
capacity-triggered eviction (set d) removes a — whereas the claim, under
which the overwrite made a the newest entry, requires b to be evicted
and a to survive. -/
theorem overwrite_resets_order_cex :
    (omKeys (Cache.set (Cache.set (Cache.set (Cache.set
        (Cache.mkCache Nat (some 3) none)
        "a" 1 none 0) "b" 2 none 0) "a" 3 none 0) "c" 4 none 0).cache
      = ["a", "b", "c"])
    ∧ (omKeys (Cache.set (Cache.set (Cache.set (Cache.set (Cache.set
        (Cache.mkCache Nat (some 3) none)
        "a" 1 none 0) "b" 2 none 0) "a" 3 none 0) "c" 4 none 0)
        "d" 5 none 0).cache
      = ["b", "c", "d"])
    ∧ (Cache.hasOp (Cache.set (Cache.set (Cache.set (Cache.set (Cache.set
        (Cache.mkCache Nat (some 3) none)
        "a" 1 none 0) "b" 2 none 0) "a" 3 none 0) "c" 4 none 0)
        "d" 5 none 0) "a" = false) := by
  decide

/-- C5 amended: set on a key that already exists does not reset its
insertion order; below capacity the overwrite leaves the key sequence of
the cache unchanged, so the overwritten key keeps its original eviction
priority. -/
theorem overwrite_keeps_insertion_order (s : Cache Nat) (k : String)
    (v : Nat) (ttl : Option Int) (now : Int)
    (hhas : omHas s.cache k = true)
    (hlt : (Cache.sizeOp s : Int) < s.maxSize) :
    omKeys (Cache.set s k v ttl now).cache = omKeys s.cache := by
  have hlt' : (omSize s.cache : Int) < s.maxSize := hlt
  rw [Cache.set_cache, Cache.evictIfFull_of_lt s hlt']
  exact omKeys_omSet_of_has s.cache k v hhas

/-- Witness for the amended C5: overwriting a in a below-capacity cache
keeps the key order a, b. -/
theorem overwrite_keeps_insertion_order_witness :
    omKeys (Cache.set (Cache.set (Cache.set (Cache.mkCache Nat (some 3) none)
      "a" 1 none 0) "b" 2 none 0) "a" 9 none 0).cache
    = omKeys (Cache.set (Cache.set (Cache.mkCache Nat (some 3) none)
      "a" 1 none 0) "b" 2 none 0).cache :=
  overwrite_keeps_insertion_order
    (Cache.set (Cache.set (Cache.mkCache Nat (some 3) none)
      "a" 1 none 0) "b" 2 none 0) "a" 9 none 0 (by decide) (by decide)

/-- C6 counterexample: a cache constructed with capacity 0 retains the
entry just set — size() is 1, not 0, and get returns the value. -/
theorem capacity_zero_retains_cex :
    (Cache.sizeOp (Cache.set (Cache.mkCache Nat (some 0) none)
        "a" 1 none 0) = 1)
    ∧ ((Cache.get (Cache.set (Cache.mkCache Nat (some 0) none)
        "a" 1 none 0) "a" 0).1 = some 1) := by
  decide

/-- C6 amended: every operation is a total function (all operations of
the embedding are total Lean functions), but a capacity of 0 is falsy in
the constructor expression options.maxSize || 1000 and is coerced to the
default 1000, so a capacity-0 cache behaves as a capacity-1000 cache and
does retain entries: after one set, size() is 1 and get returns the
value. -/
theorem capacity_zero_defaults_to_thousand :
    ((Cache.mkCache Nat (some 0) none).maxSize = 1000)
    ∧ (Cache.sizeOp (Cache.set (Cache.mkCache Nat (some 0) none)
        "a" 1 none 0) = 1)
    ∧ ((Cache.get (Cache.set (Cache.mkCache Nat (some 0) none)
        "a" 1 none 0) "a" 0).1 = some 1)
    ∧ (Cache.sizeOp (Cache.clearOp (Cache.set
        (Cache.mkCache Nat (some 0) none) "a" 1 none 0)) = 0) := by
  decide

/-- C10 counterexample: a set with ttl = 0 immediately followed by a get
observes the just-set value (0 is falsy, so ttl || defaultTTL falls back
to the default 300000), whereas the claim requires absent for a zero
TTL. -/
theorem zero_ttl_get_cex :
    (Cache.get (Cache.set (Cache.mkCache Nat none none) "k" 7 (some 0) 100)
      "k" 100).1 = some 7 := by
  decide

/-- C10 amended: with a nonnegative default TTL, a set immediately
followed by a get (same instant, single key) observes the just-set value
when the TTL is omitted, zero (zero is falsy and falls back to the
default TTL) or nonnegative; only a strictly negative TTL makes the get
return absent, except in the degenerate case where the computed expiry
instant now + ttl is exactly 0, which the timestamp truthiness check
treats as no expiry. -/
theorem set_then_get_semantics (s : Cache Nat) (k : String) (v : Nat)
    (now : Int) (hd : 0 ≤ s.defaultTTL) :
    ((Cache.get (Cache.set s k v none now) k now).1 = some v)
    ∧ (∀ t : Int, 0 ≤ t →
        (Cache.get (Cache.set s k v (some t) now) k now).1 = some v)
    ∧ (∀ t : Int, t < 0 → now + t ≠ 0 →
        (Cache.get (Cache.set s k v (some t) now) k now).1 = none) := by
  refine ⟨?_, ?_, ?_⟩
  · rw [(Cache.get_after_set s k v none now now).1]
    rw [if_neg]
    intro hc
    obtain ⟨hne, hgt⟩ := hc
    have he : jsOrNum none s.defaultTTL = s.defaultTTL := rfl
    rw [he] at hgt
    omega
  · intro t ht
    rw [(Cache.get_after_set s k v (some t) now now).1]
    rw [if_neg]
    intro hc
    obtain ⟨hne, hgt⟩ := hc
    have he : jsOrNum (some t) s.defaultTTL = if t = 0 then s.defaultTTL else t := rfl
    rw [he] at hgt
    by_cases ht0 : t = 0
    · rw [if_pos ht0] at hgt
      omega
    · rw [if_neg ht0] at hgt
      omega
  · intro t ht hne
    rw [(Cache.get_after_set s k v (some t) now now).1]
    rw [if_pos]
    have ht0 : t ≠ 0 := by omega
    have he : jsOrNum (some t) s.defaultTTL = t := by
      simp [jsOrNum, ht0]
    rw [he]
    exact ⟨hne, by omega⟩

/-- Witness for the amended C10 at the default cache, instant 100, with
omitted TTL, TTL 5 and TTL -5. -/
theorem set_then_get_semantics_witness :
    ((Cache.get (Cache.set (Cache.mkCache Nat none none) "k" 7 none 100)
        "k" 100).1 = some 7)
    ∧ ((Cache.get (Cache.set (Cache.mkCache Nat none none) "k" 7 (some 5) 100)
        "k" 100).1 = some 7)
    ∧ ((Cache.get (Cache.set (Cache.mkCache Nat none none) "k" 7 (some (-5)) 100)
        "k" 100).1 = none) :=
  ⟨(set_then_get_semantics (Cache.mkCache Nat none none) "k" 7 100 (by decide)).1,
   (set_then_get_semantics (Cache.mkCache Nat none none) "k" 7 100 (by decide)).2.1
      5 (by decide),
   (set_then_get_semantics (Cache.mkCache Nat none none) "k" 7 100 (by decide)).2.2
      (-5) (by decide) (by decide)⟩

/-- C2 counterexample: after set with TTL 5 at instant 0, a read at
instant 10 is past expiry — get returns absent — yet has still returns
true on the untouched state: has applies no expiry check and performs no
deletion, contrary to the claim. -/
theorem has_ignores_expiry_cex :
    ((Cache.get (Cache.set (Cache.mkCache Nat none none) "k" 7 (some 5) 0)
        "k" 10).1 = none)
    ∧ (Cache.hasOp (Cache.set (Cache.mkCache Nat none none) "k" 7 (some 5) 0)
        "k" = true) := by
  decide

/-- C2 amended: has reads raw presence in the backing map with no expiry
semantics and no lazy-deletion side effect: on an entry already past its
expiry, has still returns true until a get touches the key; the get
returns absent and deletes the entry, after which has returns false. -/
theorem has_raw_presence (s : Cache Nat) (k : String) (v : Nat)
    (t now read : Int) (ht0 : t ≠ 0) (hte : now + t ≠ 0)
    (hexp : read > now + t) :
    (Cache.hasOp (Cache.set s k v (some t) now) k = true)
    ∧ ((Cache.get (Cache.set s k v (some t) now) k read).1 = none)
    ∧ (Cache.hasOp (Cache.get (Cache.set s k v (some t) now) k read).2 k
        = false) := by
  have he : jsOrNum (some t) s.defaultTTL = t := by
    simp [jsOrNum, ht0]
  have hcond : (now + jsOrNum (some t) s.defaultTTL) ≠ 0
      ∧ read > (now + jsOrNum (some t) s.defaultTTL) := by
    rw [he]
    exact ⟨hte, hexp⟩
  refine ⟨?_, ?_, ?_⟩
  · show omHas (Cache.set s k v (some t) now).cache k = true
    rw [Cache.set_cache]
    exact omHas_omSet_self _ k v
  · rw [(Cache.get_after_set s k v (some t) now read).1]
    exact if_pos hcond
  · rw [(Cache.get_after_set s k v (some t) now read).2]
    rw [if_pos hcond]
    show omHas (omDelete (Cache.set s k v (some t) now).cache k) k = false
    exact omHas_omDelete_self _ k

/-- Witness for the amended C2: TTL 5 at instant 0, read at instant 10. -/
theorem has_raw_presence_witness :
    (Cache.hasOp (Cache.set (Cache.mkCache Nat none none) "k" 7 (some 5) 0)
        "k" = true)
    ∧ ((Cache.get (Cache.set (Cache.mkCache Nat none none) "k" 7 (some 5) 0)
        "k" 10).1 = none)
    ∧ (Cache.hasOp (Cache.get (Cache.set (Cache.mkCache Nat none none)
        "k" 7 (some 5) 0) "k" 10).2 "k" = false) :=
  has_raw_presence (Cache.mkCache Nat none none) "k" 7 5 0 10
    (by decide) (by decide) (by decide)

/-- C3: the safe message of a Security-kind error is one fixed generic
sentence independent of the original message (any two Security errors
yield the same safe message), and for every other recognized kind the
safe message is the error's original message. -/
theorem security_safe_message_noninterference :
    (∀ (m1 m2 : String) (d1 d2 : DVal) (t1 t2 : Int),
        getSafeErrorMessage (.fca .security m1 d1 t1)
          = getSafeErrorMessage (.fca .security m2 d2 t2))
    ∧ (∀ (m : String) (d : DVal) (t : Int),
        getSafeErrorMessage (.fca .security m d t)
          = "A security error occurred. Please check your credentials and try again.")
    ∧ (∀ (k : FCAKind) (m : String) (d : DVal) (t : Int), k ≠ .security →
        getSafeErrorMessage (.fca k m d t) = m) := by
  refine ⟨?_, ?_, ?_⟩
  · intro m1 m2 d1 d2 t1 t2
    rfl
  · intro m d t
    rfl
  · intro k m d t hk
    simp [getSafeErrorMessage, hk]

/-- Witness for C3: a Network-kind error keeps its original message. -/
theorem security_safe_message_noninterference_witness :
    getSafeErrorMessage (.fca .network "socket reset" (.obj .nil) 0)
      = "socket reset" :=
  security_safe_message_noninterference.2.2 .network "socket reset"
    (.obj .nil) 0 (by decide)

/-- C4: createErrorResponse on a Validation-kind error with message
Invalid input returns error true, the original message, internal code
VALIDATION_ERROR, catalog code ERR_GENERAL_01 (the catalog has no entry
keyed by the internal kind code, so the lookup falls back to the general
code), the error's details unchanged, and the error's own construction
timestamp, independent of the report instant; in particular with details
field: name. -/
theorem createErrorResponse_validation_fallback :
    (∀ (d : DVal) (ts now : Int),
        createErrorResponse (.fca .validation "Invalid input" d ts) now
          = { error := true, message := "Invalid input",
              code := "VALIDATION_ERROR", errorCode := "ERR_GENERAL_01",
              details := d, timestamp := ts })
    ∧ (∀ (ts now : Int),
        createErrorResponse (.fca .validation "Invalid input"
            (.obj (.cons "field" (.str "name") .nil)) ts) now
          = { error := true, message := "Invalid input",
              code := "VALIDATION_ERROR", errorCode := "ERR_GENERAL_01",
              details := .obj (.cons "field" (.str "name") .nil),
              timestamp := ts }) := by
  constructor
  · intro d ts now
    rfl
  · intro ts now
    rfl

/-- C9: validateRequiredParams rejects null, undefined and string params
with a Validation-kind error; on an object it fails with a Validation
error naming the first required name whose property is undefined or
null; and it succeeds when every required name is present and
non-null. -/
theorem validateRequiredParams_spec :
    (∀ (required : List String) (now : Int),
        validateRequiredParams .null required now
          = .error (mkValidationError "Parameters must be an object" now))
    ∧ (∀ (required : List String) (now : Int),
        validateRequiredParams .undef required now
          = .error (mkValidationError "Parameters must be an object" now))
    ∧ (∀ (sv : String) (required : List String) (now : Int),
        validateRequiredParams (.str sv) required now
          = .error (mkValidationError "Parameters must be an object" now))
    ∧ (∀ (fields : DFields) (pre post : List String) (p : String) (now : Int),
        (∀ q ∈ pre, ((DVal.obj fields).getProp q).isMissingVal = false) →
        ((DVal.obj fields).getProp p).isMissingVal = true →
        validateRequiredParams (.obj fields) (pre ++ p :: post) now
          = .error (mkValidationError
              ("Required parameter '" ++ p ++ "' is missing") now))
    ∧ (∀ (fields : DFields) (required : List String) (now : Int),
        (∀ q ∈ required, ((DVal.obj fields).getProp q).isMissingVal = false) →
        validateRequiredParams (.obj fields) required now = .ok ()) := by
  refine ⟨?_, ?_, ?_, ?_, ?_⟩
  · intro required now
    rfl
  · intro required now
    rfl
  · intro sv required now
    simp [validateRequiredParams, DVal.falsy, DVal.typeofStr]
  · intro fields pre post p now hpre hmiss
    have hobj : validateRequiredParams (.obj fields) (pre ++ p :: post) now
        = checkRequired (.obj fields) now (pre ++ p :: post) := rfl
    rw [hobj]
    clear hobj
    induction pre with
    | nil =>
        simp only [List.nil_append, checkRequired, hmiss, if_true]
    | cons q pre ih =>
        have hq : ((DVal.obj fields).getProp q).isMissingVal = false :=
          hpre q (by simp)
        simp only [List.cons_append, checkRequired, hq, Bool.false_eq_true,
          if_false]
        exact ih (fun r hr => hpre r (by simp [hr]))
  · intro fields required now hall
    have hobj : validateRequiredParams (.obj fields) required now
        = checkRequired (.obj fields) now required := rfl
    rw [hobj]
    clear hobj
    induction required with
    | nil => rfl
    | cons q rest ih =>
        have hq : ((DVal.obj fields).getProp q).isMissingVal = false :=
          hall q (by simp)
        simp only [checkRequired, hq, Bool.false_eq_true, if_false]
        exact ih (fun r hr => hall r (by simp [hr]))

/-- Witness for C9: the spec's concrete cases — params with only id
fails naming name, params with id and name succeeds, and null and
string params are rejected. -/
theorem validateRequiredParams_spec_witness :
    (validateRequiredParams (.obj (.cons "id" (.str "123") .nil))
        ["id", "name"] 0
      = .error (mkValidationError "Required parameter 'name' is missing" 0))
    ∧ (validateRequiredParams
        (.obj (.cons "id" (.str "123") (.cons "name" (.str "x") .nil)))
        ["id", "name"] 0 = .ok ())
    ∧ (validateRequiredParams .null ["id"] 0
      = .error (mkValidationError "Parameters must be an object" 0))
    ∧ (validateRequiredParams (.str "x") ["id"] 0
      = .error (mkValidationError "Parameters must be an object" 0)) :=
  ⟨validateRequiredParams_spec.2.2.2.1 (.cons "id" (.str "123") .nil)
      ["id"] [] "name" 0 (by decide) (by decide),
   validateRequiredParams_spec.2.2.2.2
      (.cons "id" (.str "123") (.cons "name" (.str "x") .nil))
      ["id", "name"] 0 (by decide),
   validateRequiredParams_spec.1 ["id"] 0,
   validateRequiredParams_spec.2.2.1 "x" ["id"] 0⟩

/-- C7: in the per-error-code retry bookkeeping, a retryable failure
arriving when the stored attempt count has reached maxRetries resets the
count to 0 and delivers the original error (not a synthetic max-retries
error) to the callback; a failure arriving at count 0 starts a cycle at
attempt 1; and the concrete NETWORK_TIMEOUT trace (catalog code
ERR_NETWORK_01, maxRetries 3) performs retry attempts 1, 2 and 3, then
surfaces the original error with the counter cleared, after which the
next failure starts again at attempt 1. -/
theorem retry_exhaustion_resets_and_surfaces :
    (∀ (e : JSErr) (opts : HandlerOpts) (st : OMap Int) (now : Int),
        opts.retry = true →
        shouldRetry (errCodeOf e) opts.maxRetries = true →
        opts.maxRetries ≤ getRetryCount st (errCodeOf e) →
        getRetryCount (handleApiError e opts true st now).1 (errCodeOf e) = 0
        ∧ (handleApiError e opts true st now).2 = .callbackErr e)
    ∧ (∀ (e : JSErr) (opts : HandlerOpts) (st : OMap Int) (now : Int),
        opts.retry = true →
        shouldRetry (errCodeOf e) opts.maxRetries = true →
        getRetryCount st (errCodeOf e) = 0 →
        getRetryCount (handleApiError e opts true st now).1 (errCodeOf e) = 1
        ∧ (handleApiError e opts true st now).2
            = .retryCallback (.plain "Retry attempt 1" none))
    ∧ (let e := JSErr.plain "Request timed out" (some "ERR_NETWORK_01")
       let opts : HandlerOpts :=
         { retry := true, maxRetries := 3, retryDelay := 1000,
           report := true, logLevel := "error" }
       (handleApiError e opts true [] 0
          = ([("ERR_NETWORK_01", 1)], .retryCallback (.plain "Retry attempt 1" none)))
       ∧ (handleApiError e opts true [("ERR_NETWORK_01", 1)] 0
          = ([("ERR_NETWORK_01", 2)], .retryCallback (.plain "Retry attempt 2" none)))
       ∧ (handleApiError e opts true [("ERR_NETWORK_01", 2)] 0
          = ([("ERR_NETWORK_01", 3)], .retryCallback (.plain "Retry attempt 3" none)))
       ∧ (handleApiError e opts true [("ERR_NETWORK_01", 3)] 0
          = ([], .callbackErr e))
       ∧ (handleApiError e opts true [] 0
          = ([("ERR_NETWORK_01", 1)], .retryCallback (.plain "Retry attempt 1" none)))) := by
  refine ⟨?_, ?_, ?_⟩
  · intro e opts st now hr hs hge
    have hcond : (opts.retry && shouldRetry (errCodeOf e) opts.maxRetries)
        = true := by rw [hr, hs]; rfl
    have hnlt : ¬ (getRetryCount st (errCodeOf e) < opts.maxRetries) :=
      not_lt.mpr hge
    simp only [handleApiError, hcond, if_true, hnlt, if_false]
    constructor
    · simp [surfaceError, resetRetryCount, getRetryCount, omGet_omDelete_self]
    · simp [surfaceError]
  · intro e opts st now hr hs h0
    have hcond : (opts.retry && shouldRetry (errCodeOf e) opts.maxRetries)
        = true := by rw [hr, hs]; rfl
    have hm : 0 < opts.maxRetries := by
      have hs2 := hs
      simp only [shouldRetry, Bool.and_eq_true, decide_eq_true_eq] at hs2
      exact hs2.2
    have hlt : getRetryCount st (errCodeOf e) < opts.maxRetries := by
      rw [h0]; exact hm
    simp only [handleApiError, hcond, if_true, hlt, if_true]
    constructor
    · have h0' : (omGet st (errCodeOf e)).getD 0 = 0 := h0
      simp [incrementRetryCount, getRetryCount, omGet_omSet_self, h0']
    · simp only [h0]
      rfl
  · exact ⟨rfl, rfl, rfl, rfl, rfl⟩

/-- Witness for C7: exhaustion and fresh-cycle parts applied to the
NETWORK_TIMEOUT catalog code with the default retry budget of 3. -/
theorem retry_exhaustion_resets_and_surfaces_witness :
    (getRetryCount (handleApiError
        (.plain "Request timed out" (some "ERR_NETWORK_01"))
        { retry := true, maxRetries := 3, retryDelay := 1000,
          report := true, logLevel := "error" }
        true [("ERR_NETWORK_01", 3)] 0).1 "ERR_NETWORK_01" = 0
      ∧ (handleApiError (.plain "Request timed out" (some "ERR_NETWORK_01"))
          { retry := true, maxRetries := 3, retryDelay := 1000,
            report := true, logLevel := "error" }
          true [("ERR_NETWORK_01", 3)] 0).2
        = .callbackErr (.plain "Request timed out" (some "ERR_NETWORK_01")))
    ∧ (getRetryCount (handleApiError
        (.plain "Request timed out" (some "ERR_NETWORK_01"))
        { retry := true, maxRetries := 3, retryDelay := 1000,
          report := true, logLevel := "error" }
        true [] 0).1 "ERR_NETWORK_01" = 1
      ∧ (handleApiError (.plain "Request timed out" (some "ERR_NETWORK_01"))
          { retry := true, maxRetries := 3, retryDelay := 1000,
            report := true, logLevel := "error" }
          true [] 0).2
        = .retryCallback (.plain "Retry attempt 1" none)) :=
  ⟨retry_exhaustion_resets_and_surfaces.1
      (.plain "Request timed out" (some "ERR_NETWORK_01"))
      { retry := true, maxRetries := 3, retryDelay := 1000,
        report := true, logLevel := "error" }
      [("ERR_NETWORK_01", 3)] 0 rfl rfl (by decide),
   retry_exhaustion_resets_and_surfaces.2.1
      (.plain "Request timed out" (some "ERR_NETWORK_01"))
      { retry := true, maxRetries := 3, retryDelay := 1000,
        report := true, logLevel := "error" }
      [] 0 rfl rfl rfl⟩

/-- C8 counterexample: with a callback supplied and no retry, an
unrecognized raw error is passed to the callback exactly as it came in,
not wrapped into a Network-kind StandardError — so a callback-style
caller can receive a raw unclassified failure, contrary to the claim
that every caller receives a typed classified error. -/
theorem callback_receives_raw_error_cex :
    (handleApiError (.plain "boom" none) defaultHandlerOpts true [] 0
      = ([], .callbackErr (.plain "boom" none)))
    ∧ isFCAErr (.plain "boom" none) = false :=
  ⟨rfl, rfl⟩

/-- C8 amended: in promise style (no callback) a recognized FCAError is
rethrown unchanged and an unrecognized error is wrapped as a
Network-kind error carrying the original error in details.originalError;
in callback style the callback receives the error exactly as it came in,
raw and unwrapped when it was unrecognized. -/
theorem boundary_error_classification (st : OMap Int) (now : Int)
    (opts : HandlerOpts) (hnr : opts.retry = false) :
    (∀ (k : FCAKind) (m : String) (d : DVal) (ts : Int),
        handleApiError (.fca k m d ts) opts false st now
          = (st, .thrown (.fca k m d ts)))
    ∧ (∀ (m : String) (c : Option String),
        handleApiError (.plain m c) opts false st now
          = (st, .thrown (.fca .network "An unexpected error occurred"
              (.obj (.cons "originalError" (.err (.plain m c)) .nil)) now)))
    ∧ (∀ (e : JSErr),
        handleApiError e opts true st now = (st, .callbackErr e)) := by
  have hcond : ∀ c, (opts.retry && shouldRetry c opts.maxRetries) = false := by
    intro c
    rw [hnr]
    rfl
  refine ⟨?_, ?_, ?_⟩
  · intro k m d ts
    simp only [handleApiError, hcond, if_false]
    rfl
  · intro m c
    simp only [handleApiError, hcond, if_false]
    rfl
  · intro e
    simp only [handleApiError, hcond, if_false]
    rfl

/-- Witness for the amended C8: a Validation error is rethrown as-is in
promise style, an unrecognized error is wrapped with originalError in
promise style, and the callback receives the raw error. -/
theorem boundary_error_classification_witness :
    (handleApiError (.fca .validation "bad" (.obj .nil) 5)
        defaultHandlerOpts false [] 0
      = ([], .thrown (.fca .validation "bad" (.obj .nil) 5)))
    ∧ (handleApiError (.plain "boom" (some "EFOO"))
        defaultHandlerOpts false [] 0
      = ([], .thrown (.fca .network "An unexpected error occurred"
          (.obj (.cons "originalError" (.err (.plain "boom" (some "EFOO"))) .nil)) 0)))
    ∧ (handleApiError (.plain "socket" none) defaultHandlerOpts true [] 0
      = ([], .callbackErr (.plain "socket" none))) :=
  ⟨(boundary_error_classification [] 0 defaultHandlerOpts rfl).1
      .validation "bad" (.obj .nil) 5,
   (boundary_error_classification [] 0 defaultHandlerOpts rfl).2.1
      "boom" (some "EFOO"),
   (boundary_error_classification [] 0 defaultHandlerOpts rfl).2.2
      (.plain "socket" none)⟩

end Asura
